import Mathlib

/-!
# Verification of the command retry-executor (`redo.py`)

Shallow embedding of the retry-executor: a success-condition evaluator
(the source passes the condition string to Python `eval` with only the
names `stdout` and `stderr` bound), an attempt loop with exponential
backoff and jitter, and the CLI entry point mapping the loop's result to
a process exit status.

Durations are modelled as rationals.  The behaviour of the external
command is a function from the 1-based attempt index to the outcome of
that invocation, and the jitter draws of `random.uniform(0, jitter)` are
a function from the attempt index to the drawn amount.
-/

namespace Redo

/-! ## The success-condition evaluator

The source evaluates the user-supplied condition with
`eval(condition, {"stdout": stdout, "stderr": stderr})` and catches every
exception, returning `False`.  We embed a fragment of Python's expression
language sufficient for the conditions at issue: literals, names,
attribute access, comparisons, boolean combinators with Python's
short-circuit value semantics, substring membership (`in`), and
single-argument function calls.  The evaluator counts the function calls
it performs, so that side effects of evaluation are observable in the
model. -/

inductive CmpOp where
  | eq | ne | lt | le | gt | ge
deriving DecidableEq, Repr

inductive PyExpr where
  | intLit (n : Int)
  | strLit (s : String)
  | name (s : String)
  | attr (e : PyExpr) (field : String)
  | compare (op : CmpOp) (a b : PyExpr)
  | boolAnd (a b : PyExpr)
  | boolOr (a b : PyExpr)
  | boolNot (a : PyExpr)
  | inOp (a b : PyExpr)
  | call (f : PyExpr) (arg : PyExpr)
deriving DecidableEq, Repr

/-- A runtime value of the evaluator.  `builtin` models Python's built-in
functions, which `eval` makes reachable because the globals dictionary
passed to it lacks a `__builtins__` entry. -/
inductive Value where
  | int (n : Int)
  | str (s : String)
  | bool (b : Bool)
  | builtin (s : String)
  | none
deriving DecidableEq, Repr

/-- Names of built-in functions reachable from the evaluation environment
(a representative fragment). -/
def builtinNames : List String :=
  ["print", "len", "open", "exec", "eval", "__import__", "abs", "str", "int"]

/-- Name lookup in the environment `eval` receives: exactly `stdout` and
`stderr` are bound, built-ins are reachable, every other name raises
`NameError`. -/
def lookupName (stdout stderr : String) (n : String) : Except String Value :=
  if n = "stdout" then .ok (.str stdout)
  else if n = "stderr" then .ok (.str stderr)
  else if n ∈ builtinNames then .ok (.builtin n)
  else .error ("NameError: name " ++ n ++ " is not defined")

/-- Python truthiness of a value. -/
def truthy : Value → Bool
  | .int n => n ≠ 0
  | .str s => s ≠ ""
  | .bool b => b
  | .builtin _ => true
  | .none => false

/-- `True == 1` in Python: booleans are integers for comparison. -/
def asInt? : Value → Option Int
  | .int n => some n
  | .bool b => some (if b then 1 else 0)
  | _ => Option.none

/-- Python `==` on the modelled values. -/
def pyEq (a b : Value) : Bool :=
  match asInt? a, asInt? b with
  | some x, some y => x = y
  | _, _ =>
    match a, b with
    | .str x, .str y => x = y
    | .none, .none => true
    | _, _ => false

/-- Python `<` (order comparisons): defined between numbers and between
strings, a `TypeError` otherwise. -/
def pyLt (a b : Value) : Except String Bool :=
  match asInt? a, asInt? b with
  | some x, some y => .ok (x < y)
  | _, _ =>
    match a, b with
    | .str x, .str y => .ok (x < y)
    | _, _ => .error "TypeError: unsupported comparison"

/-- One comparison operator applied to two values. -/
def applyCmp (op : CmpOp) (a b : Value) : Except String Bool :=
  match op with
  | .eq => .ok (pyEq a b)
  | .ne => .ok (!pyEq a b)
  | .lt => pyLt a b
  | .gt => pyLt b a
  | .le => do pure (!(← pyLt b a))
  | .ge => do pure (!(← pyLt a b))

/-- Substring test on the underlying character lists. -/
def subList (needle : List Char) : List Char → Bool
  | [] => needle.isEmpty
  | c :: t => needle.isPrefixOf (c :: t) || subList needle t

/-- Python `x in y` for the modelled values: substring containment. -/
def pyIn (a b : Value) : Except String Bool :=
  match a, b with
  | .str x, .str y => .ok (subList x.toList y.toList)
  | _, _ => .error "TypeError: argument of type is not iterable"

/-- Result of evaluating one expression: the value or the raised
exception, together with the number of function calls performed
(observable side effects of the evaluation). -/
structure EvalRes where
  val : Except String Value
  calls : Nat
deriving Repr

/-- Evaluation of the embedded Python expression fragment in the
environment `{stdout, stderr}`.  Attribute access on the captured values
is not needed by any condition in scope and is modelled as raising;
calling a built-in performs the call (counted) and yields `None`. -/
def evalPy (stdout stderr : String) : PyExpr → EvalRes
  | .intLit n => ⟨.ok (.int n), 0⟩
  | .strLit s => ⟨.ok (.str s), 0⟩
  | .name n => ⟨lookupName stdout stderr n, 0⟩
  | .attr e _ =>
    let r := evalPy stdout stderr e
    match r.val with
    | .ok _ => ⟨.error "AttributeError", r.calls⟩
    | .error m => ⟨.error m, r.calls⟩
  | .compare op a b =>
    let ra := evalPy stdout stderr a
    match ra.val with
    | .error m => ⟨.error m, ra.calls⟩
    | .ok va =>
      let rb := evalPy stdout stderr b
      match rb.val with
      | .error m => ⟨.error m, ra.calls + rb.calls⟩
      | .ok vb => ⟨(applyCmp op va vb).map .bool, ra.calls + rb.calls⟩
  | .boolAnd a b =>
    let ra := evalPy stdout stderr a
    match ra.val with
    | .error m => ⟨.error m, ra.calls⟩
    | .ok va =>
      if truthy va then
        let rb := evalPy stdout stderr b
        ⟨rb.val, ra.calls + rb.calls⟩
      else ⟨.ok va, ra.calls⟩
  | .boolOr a b =>
    let ra := evalPy stdout stderr a
    match ra.val with
    | .error m => ⟨.error m, ra.calls⟩
    | .ok va =>
      if truthy va then ⟨.ok va, ra.calls⟩
      else
        let rb := evalPy stdout stderr b
        ⟨rb.val, ra.calls + rb.calls⟩
  | .boolNot a =>
    let ra := evalPy stdout stderr a
    match ra.val with
    | .error m => ⟨.error m, ra.calls⟩
    | .ok va => ⟨.ok (.bool (!truthy va)), ra.calls⟩
  | .inOp a b =>
    let ra := evalPy stdout stderr a
    match ra.val with
    | .error m => ⟨.error m, ra.calls⟩
    | .ok va =>
      let rb := evalPy stdout stderr b
      match rb.val with
      | .error m => ⟨.error m, ra.calls + rb.calls⟩
      | .ok vb => ⟨(pyIn va vb).map .bool, ra.calls + rb.calls⟩
  | .call f arg =>
    let rf := evalPy stdout stderr f
    match rf.val with
    | .error m => ⟨.error m, rf.calls⟩
    | .ok vf =>
      let ra := evalPy stdout stderr arg
      match ra.val with
      | .error m => ⟨.error m, rf.calls + ra.calls⟩
      | .ok _ =>
        match vf with
        | .builtin _ => ⟨.ok .none, rf.calls + ra.calls + 1⟩
        | _ => ⟨.error "TypeError: object is not callable", rf.calls + ra.calls⟩

/-- A user-supplied condition string: either it fails to parse
(`SyntaxError` raised by `eval` when it compiles the string) or it parses
to an expression. -/
inductive Condition where
  | malformed
  | expr (e : PyExpr)
deriving DecidableEq, Repr

/-- Outcome of `evaluate_condition`: the truthiness of the value the
condition evaluated to (the caller tests it with `if success:`), or
`false` when an exception was caught, plus the calls performed. -/
structure CondEval where
  success : Bool
  calls : Nat
deriving DecidableEq, Repr

/-- `evaluate_condition(stdout, stderr, condition)`: evaluates the
condition with `eval` over `{"stdout": stdout, "stderr": stderr}`; every
exception (including the `SyntaxError` of a malformed string) is caught,
printed, and turned into `False`. -/
def evaluate_condition (stdout stderr : String) (condition : Condition) : CondEval :=
  match condition with
  | .malformed => ⟨false, 0⟩
  | .expr e =>
    let r := evalPy stdout stderr e
    match r.val with
    | .ok v => ⟨truthy v, r.calls⟩
    | .error _ => ⟨false, r.calls⟩

/-! ## The attempt loop -/

/-- Outcome of one invocation of the external command: normal completion
with exit code and captured streams, `subprocess.TimeoutExpired`, or any
other exception raised by `subprocess.run` (spawn failure, command not
found, permission denied). -/
inductive RunOutcome where
  | completed (exitCode : Int) (stdout stderr : String)
  | timedOut
  | execError (msg : String)
deriving DecidableEq, Repr

/-- Whether an attempt with the given invocation outcome satisfies the
condition: on completion the condition is evaluated over the captured
streams (note the exit code is not part of the evaluation environment);
on timeout or invocation error the success test is never reached. -/
def attemptSuccess (condition : Condition) : RunOutcome → Bool
  | .completed _ stdout stderr => (evaluate_condition stdout stderr condition).success
  | .timedOut => false
  | .execError _ => false

/-- `sleep_time = min(delay * (2 ** (attempt - 1)), max_delay)`, then
`if jitter > 0: sleep_time += random.uniform(0, jitter)` with `d` the
drawn amount.  The growth factor is the literal `2` of the source. -/
def sleepTime (delay max_delay jitter d : ℚ) (attempt : Nat) : ℚ :=
  let s := min (delay * 2 ^ (attempt - 1)) max_delay
  if 0 < jitter then s + d else s

/-- One attempt's record in the trace of a run: its 1-based index, the
invocation outcome, the condition outcome, and the sleep performed after
it (`none` when the loop returned without sleeping). -/
structure AttemptRecord where
  index : Nat
  outcome : RunOutcome
  success : Bool
  sleptAfter : Option ℚ
deriving DecidableEq, Repr

/-- The body of `execute_command`'s `for attempt in range(1, attempts + 1)`
loop, from attempt number `attempt` with `fuel` iterations remaining:
returns the trace of attempts and the boolean result.  On success the
loop returns `True` at once; otherwise it sleeps (also after the last
iteration — the sleep is inside the loop body) and continues. -/
def execFrom (condition : Condition) (delay max_delay jitter : ℚ)
    (behavior : Nat → RunOutcome) (draw : Nat → ℚ) :
    Nat → Nat → List AttemptRecord × Bool
  | _, 0 => ([], false)
  | attempt, fuel + 1 =>
    let o := behavior attempt
    if attemptSuccess condition o then
      ([⟨attempt, o, true, Option.none⟩], true)
    else
      let rest := execFrom condition delay max_delay jitter behavior draw (attempt + 1) fuel
      (⟨attempt, o, false,
        some (sleepTime delay max_delay jitter (draw attempt) attempt)⟩ :: rest.1,
       rest.2)

/-- `execute_command(command, condition, attempts, delay, backoff,
max_delay, jitter, timeout)`: runs the attempt loop.  `attempts` is the
parsed integer of `-a` (may be non-positive, in which case the range is
empty); `command`, `backoff` and `timeout` are accepted exactly as in the
source signature — `backoff` is never read by the loop body, and the
effects of `timeout` and of the command itself are visible only through
`behavior`. -/
def execute_command (command : List String) (condition : Condition) (attempts : Int)
    (delay backoff max_delay jitter timeout : ℚ)
    (behavior : Nat → RunOutcome) (draw : Nat → ℚ) : List AttemptRecord × Bool :=
  execFrom condition delay max_delay jitter behavior draw 1 attempts.toNat

/-! ## The CLI entry point -/

/-- The parsed command-line arguments with their argparse defaults. -/
structure Args where
  command : List String
  attempts : Int
  delay : ℚ
  backoff : ℚ
  max_delay : ℚ
  jitter : ℚ
  timeout : ℚ
  condition : Condition
deriving DecidableEq, Repr

/-- The default of the condition flag: the string
`"result.returncode == 0"`, which parses to a comparison whose left side
reads attribute `returncode` of the name `result`. -/
def defaultCondition : Condition :=
  .expr (.compare .eq (.attr (.name "result") "returncode") (.intLit 0))

/-- Arguments with every flag at its default. -/
def defaultArgs (command : List String) : Args :=
  ⟨command, 5, 1, 2, 30, 0, 10, defaultCondition⟩

/-- Whether `main` reports the configuration error
`"Error: No command specified."` (the only configuration diagnostic in
the source): exactly when the positional command is empty. -/
def configErrorReported (args : Args) : Bool :=
  args.command.isEmpty

/-- `main`: exits 1 when no command is given, otherwise runs
`execute_command` and exits 0 on success, 1 on failure. -/
def mainRun (args : Args) (behavior : Nat → RunOutcome) (draw : Nat → ℚ) : Int :=
  if args.command = [] then 1
  else if (execute_command args.command args.condition args.attempts args.delay
      args.backoff args.max_delay args.jitter args.timeout behavior draw).2
  then 0 else 1

/-- The attempts actually performed by `main`: none when the command is
missing (the error is reported before any attempt), otherwise the loop's
trace. -/
def mainTrace (args : Args) (behavior : Nat → RunOutcome) (draw : Nat → ℚ) :
    List AttemptRecord :=
  if args.command = [] then []
  else (execute_command args.command args.condition args.attempts args.delay
      args.backoff args.max_delay args.jitter args.timeout behavior draw).1

/-! ## The spec's restricted predicate grammar

For comparison with the evaluator above, `specGrammar` transcribes the
grammar of spec §4.2: boolean combinators, comparisons, containment,
references limited to the three named values (exit code, stdout,
stderr), and integer/string literals — no function calls, no attribute
access, no other names. -/

/-- Written from the spec's words (§4.2), not from the source: the
intentionally restricted predicate grammar. -/
def specGrammar : PyExpr → Bool
  | .intLit _ => true
  | .strLit _ => true
  | .name n => n = "exit_code" || n = "stdout" || n = "stderr"
  | .attr _ _ => false
  | .compare _ a b => specGrammar a && specGrammar b
  | .boolAnd a b => specGrammar a && specGrammar b
  | .boolOr a b => specGrammar a && specGrammar b
  | .boolNot a => specGrammar a
  | .inOp a b => specGrammar a && specGrammar b
  | .call _ _ => false

/-- The first attempt index in `[1, n]` whose predicate is satisfied. -/
def firstSuccessBy (condition : Condition) (behavior : Nat → RunOutcome) (n : Nat) :
    Option Nat :=
  (List.range' 1 n).find? fun k => attemptSuccess condition (behavior k)

/-! ## Lemmas about the attempt loop -/

section LoopLemmas

variable {condition : Condition} {delay max_delay jitter : ℚ}
variable {behavior : Nat → RunOutcome} {draw : Nat → ℚ}

theorem execFrom_zero (a : Nat) :
    execFrom condition delay max_delay jitter behavior draw a 0 = ([], false) := rfl

theorem execFrom_succ (a fuel : Nat) :
    execFrom condition delay max_delay jitter behavior draw a (fuel + 1) =
      if attemptSuccess condition (behavior a) then
        ([⟨a, behavior a, true, Option.none⟩], true)
      else
        let rest := execFrom condition delay max_delay jitter behavior draw (a + 1) fuel
        (⟨a, behavior a, false,
          some (sleepTime delay max_delay jitter (draw a) a)⟩ :: rest.1, rest.2) := rfl

/-- Characterisation of every record in the trace: it reports the actual
invocation outcome and condition outcome for its index, it sleeps exactly
when its condition failed (the computed backoff-with-jitter amount), and
its index lies in the window of the loop. -/
theorem mem_execFrom {rec : AttemptRecord} :
    ∀ {a fuel : Nat},
      rec ∈ (execFrom condition delay max_delay jitter behavior draw a fuel).1 →
      rec.outcome = behavior rec.index ∧
      rec.success = attemptSuccess condition (behavior rec.index) ∧
      rec.sleptAfter = (if rec.success then Option.none
        else some (sleepTime delay max_delay jitter (draw rec.index) rec.index)) ∧
      a ≤ rec.index ∧ rec.index < a + fuel := by
  intro a fuel
  induction fuel generalizing a with
  | zero => intro h; simp [execFrom_zero] at h
  | succ n ih =>
    intro h
    rw [execFrom_succ] at h
    by_cases hs : attemptSuccess condition (behavior a)
    · simp [hs] at h
      subst h
      simp [hs]
    · simp [hs] at h
      rcases h with h | h
      · subst h
        simp [hs]
      · obtain ⟨h1, h2, h3, h4, h5⟩ := ih h
        exact ⟨h1, h2, h3, by omega, by omega⟩

/-- The trace never exceeds the remaining fuel. -/
theorem execFrom_length_le :
    ∀ {a fuel : Nat},
      (execFrom condition delay max_delay jitter behavior draw a fuel).1.length ≤ fuel := by
  intro a fuel
  induction fuel generalizing a with
  | zero => simp [execFrom_zero]
  | succ n ih =>
    rw [execFrom_succ]
    by_cases hs : attemptSuccess condition (behavior a) <;> simp [hs]
    exact ih

/-- The indices recorded in the trace are consecutive starting at the
first attempt number: the numbering is strictly monotonic with no skips. -/
theorem execFrom_map_index :
    ∀ {a fuel : Nat},
      (execFrom condition delay max_delay jitter behavior draw a fuel).1.map
          AttemptRecord.index =
        List.range' a
          (execFrom condition delay max_delay jitter behavior draw a fuel).1.length := by
  intro a fuel
  induction fuel generalizing a with
  | zero => simp [execFrom_zero]
  | succ n ih =>
    rw [execFrom_succ]
    by_cases hs : attemptSuccess condition (behavior a) <;> simp [hs, List.range']
    exact ih

/-- The boolean result of the loop is `true` exactly when some recorded
attempt satisfied the condition. -/
theorem execFrom_snd_any :
    ∀ {a fuel : Nat},
      (execFrom condition delay max_delay jitter behavior draw a fuel).2 =
        (execFrom condition delay max_delay jitter behavior draw a fuel).1.any
          (fun rec => rec.success) := by
  intro a fuel
  induction fuel generalizing a with
  | zero => simp [execFrom_zero]
  | succ n ih =>
    rw [execFrom_succ]
    by_cases hs : attemptSuccess condition (behavior a) <;> simp [hs]
    exact ih

/-- The loop runs until the first satisfied attempt in its window, or to
the end of the window: the trace length and result are determined by the
first index whose condition holds. -/
theorem execFrom_find :
    ∀ {a fuel : Nat},
      (execFrom condition delay max_delay jitter behavior draw a fuel).1.length =
        ((List.range' a fuel).find? fun k =>
            attemptSuccess condition (behavior k)).elim fuel (fun k => k + 1 - a) ∧
      (execFrom condition delay max_delay jitter behavior draw a fuel).2 =
        ((List.range' a fuel).find? fun k =>
            attemptSuccess condition (behavior k)).isSome := by
  intro a fuel
  induction fuel generalizing a with
  | zero => simp [execFrom_zero]
  | succ n ih =>
    rw [execFrom_succ, List.range'_succ]
    by_cases hs : attemptSuccess condition (behavior a)
    · rw [List.find?_cons_of_pos (p := fun k => attemptSuccess condition (behavior k)) _ hs]
      simp [hs]
    · rw [List.find?_cons_of_neg (p := fun k => attemptSuccess condition (behavior k)) _ hs]
      simp only [hs, Bool.false_eq_true, if_false]
      obtain ⟨ih1, ih2⟩ := ih (a := a + 1)
      refine ⟨?_, by simpa using ih2⟩
      simp only [List.length_cons, ih1]
      rcases hfind : (List.range' (a + 1) n).find? (fun k =>
          attemptSuccess condition (behavior k)) with _ | k
      · simp
      · have hk : a + 1 ≤ k := by
          have hmem := List.mem_of_find?_eq_some hfind
          have := (List.mem_range'_1).mp hmem
          omega
        simp only [Option.elim]
        omega

/-- A loop with fuel remaining records an attempt carrying its starting
index. -/
theorem execFrom_head_exists {a fuel : Nat} (h : 0 < fuel) :
    ∃ rec ∈ (execFrom condition delay max_delay jitter behavior draw a fuel).1,
      rec.index = a := by
  cases fuel with
  | zero => omega
  | succ n =>
    rw [execFrom_succ]
    by_cases hs : attemptSuccess condition (behavior a)
    · simp [hs]
    · simp only [hs, Bool.false_eq_true, if_false]
      exact ⟨_, List.mem_cons_self _ _, rfl⟩

/-- A failed attempt that is not the last of the window is followed by an
attempt with the next index: failures are retried while attempts remain. -/
theorem execFrom_next_exists {rec : AttemptRecord} :
    ∀ {a fuel : Nat},
      rec ∈ (execFrom condition delay max_delay jitter behavior draw a fuel).1 →
      rec.success = false → rec.index + 1 < a + fuel →
      ∃ rec2 ∈ (execFrom condition delay max_delay jitter behavior draw a fuel).1,
        rec2.index = rec.index + 1 := by
  intro a fuel
  induction fuel generalizing a with
  | zero => intro h; simp [execFrom_zero] at h
  | succ n ih =>
    intro h hf hlt
    rw [execFrom_succ] at h ⊢
    by_cases hs : attemptSuccess condition (behavior a)
    · simp [hs] at h
      subst h
      simp at hf
    · simp only [hs, Bool.false_eq_true, if_false] at h ⊢
      rcases List.mem_cons.mp h with h | h
      · subst h
        have hn : 0 < n := by
          simp only [AttemptRecord.index] at hlt
          omega
        obtain ⟨rec2, hmem, hidx⟩ := execFrom_head_exists (a := a + 1) hn
        exact ⟨rec2, List.mem_cons_of_mem _ hmem, by simp [hidx]⟩
      · obtain ⟨rec2, hmem, hidx⟩ := ih h hf (by omega)
        exact ⟨rec2, List.mem_cons_of_mem _ hmem, hidx⟩

end LoopLemmas

/-- A malformed condition never satisfies any attempt: the `SyntaxError`
is caught and turned into `False`. -/
theorem attemptSuccess_malformed (o : RunOutcome) :
    attemptSuccess .malformed o = false := by
  cases o <;> rfl

/-- Evaluating an expression inside the spec's restricted grammar
performs no function calls. -/
theorem evalPy_calls_of_grammar (stdout stderr : String) :
    ∀ e : PyExpr, specGrammar e = true → (evalPy stdout stderr e).calls = 0 := by
  intro e
  induction e with
  | intLit n => intro _; rfl
  | strLit s => intro _; rfl
  | name s => intro _; rfl
  | attr e f ih => intro h; simp [specGrammar] at h
  | compare op a b iha ihb =>
    intro h
    simp only [specGrammar, Bool.and_eq_true] at h
    obtain ⟨ha, hb⟩ := h
    simp only [evalPy]
    cases hva : (evalPy stdout stderr a).val with
    | error m => simp [iha ha]
    | ok va =>
      cases hvb : (evalPy stdout stderr b).val with
      | error m => simp [iha ha, ihb hb]
      | ok vb => simp [iha ha, ihb hb]
  | boolAnd a b iha ihb =>
    intro h
    simp only [specGrammar, Bool.and_eq_true] at h
    obtain ⟨ha, hb⟩ := h
    simp only [evalPy]
    cases hva : (evalPy stdout stderr a).val with
    | error m => simp [iha ha]
    | ok va =>
      by_cases ht : truthy va <;> simp [ht, iha ha, ihb hb]
  | boolOr a b iha ihb =>
    intro h
    simp only [specGrammar, Bool.and_eq_true] at h
    obtain ⟨ha, hb⟩ := h
    simp only [evalPy]
    cases hva : (evalPy stdout stderr a).val with
    | error m => simp [iha ha]
    | ok va =>
      by_cases ht : truthy va <;> simp [ht, iha ha, ihb hb]
  | boolNot a iha =>
    intro h
    simp only [specGrammar] at h
    simp only [evalPy]
    cases hva : (evalPy stdout stderr a).val with
    | error m => simp [iha h]
    | ok va => simp [iha h]
  | inOp a b iha ihb =>
    intro h
    simp only [specGrammar, Bool.and_eq_true] at h
    obtain ⟨ha, hb⟩ := h
    simp only [evalPy]
    cases hva : (evalPy stdout stderr a).val with
    | error m => simp [iha ha]
    | ok va =>
      cases hvb : (evalPy stdout stderr b).val with
      | error m => simp [iha ha, ihb hb]
      | ok vb => simp [iha ha, ihb hb]
  | call f arg ihf iha => intro h; simp [specGrammar] at h

/-! ## Claims -/

/-- **C1** (code bug): the spec says the default predicate
"exit code == 0" is satisfied iff the process exits with status 0.  In
the code the default condition string `result.returncode == 0` is
evaluated in an environment binding only `stdout` and `stderr`, so the
name `result` raises `NameError`, the exception is caught and treated as
`False` on every attempt, whatever the streams contain; a command that
exits 0 under the default condition is never recognised as a success and
the run exits with status 1. -/
theorem C1_default_predicate_never_satisfied :
    (∀ stdout stderr : String,
      (evaluate_condition stdout stderr defaultCondition).success = false) ∧
    mainRun (defaultArgs ["true"]) (fun _ => .completed 0 "" "") (fun _ => 0) = 1 :=
  ⟨fun _ _ => rfl, rfl⟩

/-- **C3** (counterexample): with a malformed success expression and
three allowed attempts, the run performs three invocations of the
command — not zero — and ends in failure after exhausting its budget:
it does not abort at startup before any attempt. -/
theorem C3_cx :
    (execute_command ["x"] .malformed 3 1 2 30 0 10
        (fun _ => .completed 0 "" "") (fun _ => 0)).1.length = 3 ∧
      (execute_command ["x"] .malformed 3 1 2 30 0 10
        (fun _ => .completed 0 "" "") (fun _ => 0)).2 = false :=
  ⟨rfl, rfl⟩

/-- **C3** (amended): a malformed success expression is not detected at
startup; the `SyntaxError` is raised and caught at each evaluation, after
the command has already run, so the run performs exactly `attempts`
invocations (its full budget) and ends in failure. -/
theorem C3_malformed_runs_all_attempts (command : List String) (attempts : Int)
    (delay backoff max_delay jitter timeout : ℚ)
    (behavior : Nat → RunOutcome) (draw : Nat → ℚ) :
    (execute_command command .malformed attempts delay backoff max_delay jitter
        timeout behavior draw).1.length = attempts.toNat ∧
      (execute_command command .malformed attempts delay backoff max_delay jitter
        timeout behavior draw).2 = false := by
  have hfind : (List.range' 1 attempts.toNat).find? (fun k =>
      attemptSuccess .malformed (behavior k)) = Option.none := by
    rw [List.find?_eq_none]
    intro k _
    simp [attemptSuccess_malformed]
  obtain ⟨h1, h2⟩ :=
    @execFrom_find Condition.malformed delay max_delay jitter behavior draw 1 attempts.toNat
  rw [execute_command, h1, h2, hfind]
  exact ⟨rfl, rfl⟩

/-- **C8** (counterexample): the expression `__import__("os")` lies
outside the spec's restricted grammar, yet the evaluator (Python `eval`
over the condition string) evaluates it and performs the call: evaluation
is not limited to the grammar and has an observable side effect. -/
theorem C8_cx :
    specGrammar (.call (.name "__import__") (.strLit "os")) = false ∧
      (evaluate_condition "" ""
        (.expr (.call (.name "__import__") (.strLit "os")))).calls = 1 :=
  ⟨rfl, rfl⟩

/-- **C8** (amended): evaluation of an expression inside the restricted
grammar performs no function calls (no side effects), but the evaluator
does not restrict input to that grammar: expressions outside it —
function calls reaching Python's built-ins — are evaluated and perform
calls, regardless of the captured command output. -/
theorem C8_eval_side_effects :
    (∀ (stdout stderr : String) (e : PyExpr), specGrammar e = true →
        (evaluate_condition stdout stderr (.expr e)).calls = 0) ∧
      (∃ e : PyExpr, specGrammar e = false ∧
        ∀ stdout stderr : String,
          (evaluate_condition stdout stderr (.expr e)).calls ≠ 0) := by
  constructor
  · intro stdout stderr e h
    have hc := evalPy_calls_of_grammar stdout stderr e h
    rw [evaluate_condition]
    cases hv : (evalPy stdout stderr e).val <;> simp [hv, hc]
  · refine ⟨.call (.name "__import__") (.strLit "os"), rfl, ?_⟩
    intro stdout stderr
    simp [evaluate_condition, evalPy, lookupName, builtinNames]

/-- **C2** (counterexample): with backoff multiplier 3, initial delay 1,
max delay 30 and no jitter, the sleep recorded after the second failed
attempt is 2 — the source computes `min(delay * 2^(k-1), maxDelay)` with
the fixed growth factor 2 — and not `min(1 * 3^(2-1), 30) = 3` as the
claim's `backoffMultiplier^(k-1)` formula requires. -/
theorem C2_cx :
    ((execute_command ["x"] .malformed 3 1 3 30 0 10
        (fun _ => .completed 1 "" "") (fun _ => 0)).1.map
          AttemptRecord.sleptAfter).get? 1 = some (some 2) ∧
      (2 : ℚ) ≠ min (1 * 3 ^ (2 - 1)) 30 := by
  constructor
  · simp [execute_command, execFrom, attemptSuccess, evaluate_condition, sleepTime]
    norm_num
  · norm_num

/-- **C2** (amended): for every policy and every recorded failed attempt
`k` (including the final one), the delay slept after it equals
`min(initialDelay * 2^(k-1), maxDelay)` plus the jitter draw — an amount
in `[0, jitter)` when the draw is — so the cap is applied before jitter
is added, the growth factor is the fixed constant 2 (the backoff
multiplier argument is ignored), and with non-negative initialDelay and
maxDelay the slept delay is never negative. -/
theorem C2_sleep_formula (command : List String) (condition : Condition)
    (attempts : Int) (delay backoff max_delay jitter timeout : ℚ)
    (behavior : Nat → RunOutcome) (draw : Nat → ℚ)
    (rec : AttemptRecord) (s : ℚ)
    (hmem : rec ∈ (execute_command command condition attempts delay backoff
        max_delay jitter timeout behavior draw).1)
    (hslept : rec.sleptAfter = some s)
    (hd0 : 0 ≤ draw rec.index) (hdj : draw rec.index < jitter)
    (hdelay : 0 ≤ delay) (hmax : 0 ≤ max_delay) :
    s = min (delay * 2 ^ (rec.index - 1)) max_delay + draw rec.index ∧
      min (delay * 2 ^ (rec.index - 1)) max_delay ≤ s ∧
      s < min (delay * 2 ^ (rec.index - 1)) max_delay + jitter ∧
      0 ≤ s := by
  have hjpos : 0 < jitter := lt_of_le_of_lt hd0 hdj
  simp only [execute_command] at hmem
  obtain ⟨-, -, h3, -, -⟩ := mem_execFrom hmem
  by_cases hsucc : rec.success
  · rw [if_pos hsucc] at h3
    rw [h3] at hslept
    cases hslept
  · rw [if_neg hsucc] at h3
    have hseq : s = sleepTime delay max_delay jitter (draw rec.index) rec.index :=
      Option.some_inj.mp (hslept.symm.trans h3)
    have hval : sleepTime delay max_delay jitter (draw rec.index) rec.index =
        min (delay * 2 ^ (rec.index - 1)) max_delay + draw rec.index := by
      simp only [sleepTime]
      rw [if_pos hjpos]
    have h0 : 0 ≤ min (delay * 2 ^ (rec.index - 1)) max_delay := by
      refine le_min ?_ hmax
      positivity
    rw [hseq, hval]
    refine ⟨rfl, by linarith, by linarith, by linarith⟩

/-- Witness for `C2_sleep_formula`: one failed attempt with initial delay
1, max delay 30, jitter 1 and a drawn amount of 1/2 sleeps 3/2 seconds. -/
theorem C2_sleep_formula_witness :
    (3 / 2 : ℚ) = min (1 * 2 ^ (1 - 1)) 30 + 1 / 2 ∧
      min ((1 : ℚ) * 2 ^ (1 - 1)) 30 ≤ 3 / 2 ∧
      (3 / 2 : ℚ) < min (1 * 2 ^ (1 - 1)) 30 + 1 ∧
      (0 : ℚ) ≤ 3 / 2 :=
  C2_sleep_formula ["x"] .malformed 1 1 5 30 1 10
    (fun _ => .completed 1 "" "") (fun _ => (1 : ℚ) / 2)
    ⟨1, .completed 1 "" "", false, some (3 / 2)⟩ (3 / 2)
    (by simp [execute_command, execFrom, attemptSuccess, evaluate_condition, sleepTime]
        norm_num)
    rfl (by norm_num) (by norm_num) (by norm_num) (by norm_num)

/-- **C4** (counterexample): a run of one attempt that fails exhausts its
budget, yet the record of that final attempt carries a 1-second sleep:
the loop body sleeps even after the last attempt, before reporting
exhaustion. -/
theorem C4_cx :
    (execute_command ["false"] .malformed 1 1 2 30 0 10
        (fun _ => .completed 1 "" "") (fun _ => 0)).2 = false ∧
      ((execute_command ["false"] .malformed 1 1 2 30 0 10
          (fun _ => .completed 1 "" "") (fun _ => 0)).1.map
            AttemptRecord.sleptAfter).getLast? = some (some 1) := by
  constructor
  · rfl
  · simp [execute_command, execFrom, attemptSuccess, evaluate_condition, sleepTime]

/-- **C4** (amended): no sleep occurs after the attempt whose predicate
is satisfied, but a sleep occurs after every failed attempt — including
the final one when the maximum number of attempts is exhausted: each
recorded attempt sleeps exactly when its predicate was not satisfied. -/
theorem C4_sleep_iff_failed (command : List String) (condition : Condition)
    (attempts : Int) (delay backoff max_delay jitter timeout : ℚ)
    (behavior : Nat → RunOutcome) (draw : Nat → ℚ) (rec : AttemptRecord)
    (hmem : rec ∈ (execute_command command condition attempts delay backoff
        max_delay jitter timeout behavior draw).1) :
    rec.sleptAfter = (if rec.success then Option.none
      else some (sleepTime delay max_delay jitter (draw rec.index) rec.index)) := by
  simp only [execute_command] at hmem
  exact (mem_execFrom hmem).2.2.1

/-- Witness for `C4_sleep_iff_failed`: the attempt that satisfies the
predicate is recorded with no sleep after it. -/
theorem C4_sleep_iff_failed_witness :
    (⟨1, .completed 0 "x" "", true, Option.none⟩ : AttemptRecord).sleptAfter =
      (if (⟨1, .completed 0 "x" "", true, Option.none⟩ : AttemptRecord).success
        then Option.none
        else some (sleepTime 1 30 0 ((fun _ => (0 : ℚ)) 1) 1)) :=
  C4_sleep_iff_failed ["true"] (.expr (.name "stdout")) 1 1 2 30 0 10
    (fun _ => .completed 0 "x" "") (fun _ => 0)
    ⟨1, .completed 0 "x" "", true, Option.none⟩
    (by simp [execute_command, execFrom, attemptSuccess, evaluate_condition,
          evalPy, lookupName, truthy])

/-- **C5**: with at least one allowed attempt, the loop's attempt indices
are exactly 1, 2, … up to the trace length (strictly monotonic from 1,
none skipped), the number of invocations never exceeds `attempts`, and it
equals the index of the first attempt whose predicate is satisfied — or
exactly `attempts` when none is — with the run succeeding exactly when
such an attempt exists. -/
theorem C5_attempt_bound (command : List String) (condition : Condition)
    (attempts : Int) (delay backoff max_delay jitter timeout : ℚ)
    (behavior : Nat → RunOutcome) (draw : Nat → ℚ)
    (h : 1 ≤ attempts) :
    (execute_command command condition attempts delay backoff max_delay jitter
        timeout behavior draw).1.map AttemptRecord.index =
      List.range' 1 (execute_command command condition attempts delay backoff
        max_delay jitter timeout behavior draw).1.length ∧
    (execute_command command condition attempts delay backoff max_delay jitter
        timeout behavior draw).1.length ≤ attempts.toNat ∧
    (execute_command command condition attempts delay backoff max_delay jitter
        timeout behavior draw).1.length =
      (firstSuccessBy condition behavior attempts.toNat).getD attempts.toNat ∧
    (execute_command command condition attempts delay backoff max_delay jitter
        timeout behavior draw).2 =
      (firstSuccessBy condition behavior attempts.toNat).isSome := by
  obtain ⟨h1, h2⟩ :=
    @execFrom_find condition delay max_delay jitter behavior draw 1 attempts.toNat
  simp only [execute_command]
  refine ⟨execFrom_map_index, execFrom_length_le, ?_, ?_⟩
  · rw [h1, firstSuccessBy]
    rcases hf : (List.range' 1 attempts.toNat).find? (fun k =>
        attemptSuccess condition (behavior k)) with _ | k
    · rfl
    · simp
  · rw [h2, firstSuccessBy]

/-- Witness for `C5_attempt_bound`: three allowed attempts, the condition
`stdout` first truthy on attempt 2 — the run stops after attempts 1 and 2
and succeeds. -/
theorem C5_attempt_bound_witness :
    (1 : Int) ≤ 3 ∧
      ((execute_command ["x"] (.expr (.name "stdout")) 3 1 2 30 0 10
          (fun k => .completed 0 (if k = 2 then "y" else "") "") (fun _ => 0)).1.map
            AttemptRecord.index =
        List.range' 1 (execute_command ["x"] (.expr (.name "stdout")) 3 1 2 30 0 10
          (fun k => .completed 0 (if k = 2 then "y" else "") "") (fun _ => 0)).1.length ∧
      (execute_command ["x"] (.expr (.name "stdout")) 3 1 2 30 0 10
          (fun k => .completed 0 (if k = 2 then "y" else "") "") (fun _ => 0)).1.length ≤
        (3 : Int).toNat ∧
      (execute_command ["x"] (.expr (.name "stdout")) 3 1 2 30 0 10
          (fun k => .completed 0 (if k = 2 then "y" else "") "") (fun _ => 0)).1.length =
        (firstSuccessBy (.expr (.name "stdout"))
          (fun k => .completed 0 (if k = 2 then "y" else "") "") (3 : Int).toNat).getD
            (3 : Int).toNat ∧
      (execute_command ["x"] (.expr (.name "stdout")) 3 1 2 30 0 10
          (fun k => .completed 0 (if k = 2 then "y" else "") "") (fun _ => 0)).2 =
        (firstSuccessBy (.expr (.name "stdout"))
          (fun k => .completed 0 (if k = 2 then "y" else "") "") (3 : Int).toNat).isSome) :=
  ⟨by decide,
    C5_attempt_bound ["x"] (.expr (.name "stdout")) 3 1 2 30 0 10
      (fun k => .completed 0 (if k = 2 then "y" else "") "") (fun _ => 0) (by decide)⟩

/-- **C6**: the process exit status is 0 exactly when the command is
present and some attempt's predicate was satisfied, and 1 otherwise —
both on exhaustion without success and on a missing command; in the
missing-command case the failure is reported before any attempt is made
(the trace is empty). -/
theorem C6_exit_status (args : Args) (behavior : Nat → RunOutcome) (draw : Nat → ℚ) :
    mainRun args behavior draw =
      (if args.command = [] then 1
       else if (execute_command args.command args.condition args.attempts args.delay
            args.backoff args.max_delay args.jitter args.timeout behavior draw).1.any
              (fun rec => rec.success) then 0 else 1) ∧
    (mainRun args behavior draw = 0 ∨ mainRun args behavior draw = 1) ∧
    mainTrace args behavior draw =
      (if args.command = [] then []
       else (execute_command args.command args.condition args.attempts args.delay
          args.backoff args.max_delay args.jitter args.timeout behavior draw).1) := by
  refine ⟨?_, ?_, rfl⟩
  · by_cases hc : args.command = []
    · simp [mainRun, hc]
    · simp only [mainRun, hc, if_false]
      simp only [execute_command, execFrom_snd_any]
  · simp only [mainRun]
    split_ifs <;> simp

/-- **C7**: a timed-out attempt and an attempt whose invocation raised
(command not found, permission denied, spawn failure) are counted as
failed attempts of the orchestrator — never a crash of the run — and
while attempts remain the loop goes on to perform the attempt with the
next index. -/
theorem C7_errors_nonfatal (command : List String) (condition : Condition)
    (attempts : Int) (delay backoff max_delay jitter timeout : ℚ)
    (behavior : Nat → RunOutcome) (draw : Nat → ℚ) (rec : AttemptRecord)
    (hmem : rec ∈ (execute_command command condition attempts delay backoff
        max_delay jitter timeout behavior draw).1)
    (hout : rec.outcome = .timedOut ∨ ∃ m, rec.outcome = .execError m)
    (hrem : rec.index < attempts.toNat) :
    rec.success = false ∧
      rec.index + 1 ∈ (execute_command command condition attempts delay backoff
        max_delay jitter timeout behavior draw).1.map AttemptRecord.index := by
  simp only [execute_command] at hmem ⊢
  obtain ⟨h1, h2, -, -, -⟩ := mem_execFrom hmem
  have hfail : rec.success = false := by
    rw [h2, ← h1]
    rcases hout with h | ⟨m, h⟩ <;> rw [h] <;> rfl
  refine ⟨hfail, ?_⟩
  obtain ⟨rec2, hm2, hi2⟩ := execFrom_next_exists hmem hfail (by omega)
  exact List.mem_map.mpr ⟨rec2, hm2, hi2⟩

/-- Witness for `C7_errors_nonfatal`: attempt 1 times out in a run of two
allowed attempts; it is recorded as failed and attempt 2 is performed. -/
theorem C7_errors_nonfatal_witness :
    (⟨1, .timedOut, false, some 1⟩ : AttemptRecord).success = false ∧
      (⟨1, .timedOut, false, some 1⟩ : AttemptRecord).index + 1 ∈
        (execute_command ["x"] (.expr (.name "stdout")) 2 1 2 30 0 10
          (fun k => if k = 1 then .timedOut else .completed 0 "x" "") (fun _ => 0)).1.map
            AttemptRecord.index :=
  C7_errors_nonfatal ["x"] (.expr (.name "stdout")) 2 1 2 30 0 10
    (fun k => if k = 1 then .timedOut else .completed 0 "x" "") (fun _ => 0)
    ⟨1, .timedOut, false, some 1⟩
    (by simp [execute_command, execFrom, attemptSuccess, evaluate_condition,
          evalPy, lookupName, truthy, sleepTime])
    (Or.inl rfl) (by decide)

/-- **C10**: a zero or negative attempts value empties the loop's range:
no invocation of the command occurs, `execute_command` returns failure
with an empty trace, and (with a command present) the process exits with
status 1 while the only configuration diagnostic of the program — the
missing-command error — is not reported. -/
theorem C10_nonpositive_attempts (args : Args) (behavior : Nat → RunOutcome)
    (draw : Nat → ℚ) (h1 : args.attempts ≤ 0) (h2 : args.command ≠ []) :
    execute_command args.command args.condition args.attempts args.delay
        args.backoff args.max_delay args.jitter args.timeout behavior draw =
      ([], false) ∧
      mainRun args behavior draw = 1 ∧
      mainTrace args behavior draw = [] ∧
      configErrorReported args = false := by
  have hz : args.attempts.toNat = 0 := Int.toNat_of_nonpos h1
  have hex : execute_command args.command args.condition args.attempts args.delay
      args.backoff args.max_delay args.jitter args.timeout behavior draw =
      ([], false) := by
    simp only [execute_command, hz, execFrom_zero]
  refine ⟨hex, ?_, ?_, ?_⟩
  · simp [mainRun, h2, hex]
  · simp [mainTrace, h2, hex]
  · rcases hcmd : args.command with _ | ⟨c, cs⟩
    · exact absurd hcmd h2
    · simp [configErrorReported, hcmd]

/-- Witness for `C10_nonpositive_attempts`: attempts 0 with a present
command yields an empty trace, failure, exit status 1 and no
configuration diagnostic. -/
theorem C10_nonpositive_attempts_witness :
    execute_command ["x"] Condition.malformed 0 1 2 30 0 10
        (fun _ => .completed 0 "" "") (fun _ => 0) = ([], false) ∧
      mainRun ⟨["x"], 0, 1, 2, 30, 0, 10, Condition.malformed⟩
        (fun _ => .completed 0 "" "") (fun _ => 0) = 1 ∧
      mainTrace ⟨["x"], 0, 1, 2, 30, 0, 10, Condition.malformed⟩
        (fun _ => .completed 0 "" "") (fun _ => 0) = [] ∧
      configErrorReported ⟨["x"], 0, 1, 2, 30, 0, 10, Condition.malformed⟩ = false :=
  C10_nonpositive_attempts ⟨["x"], 0, 1, 2, 30, 0, 10, Condition.malformed⟩
    (fun _ => .completed 0 "" "") (fun _ => 0) (by decide) (by decide)

/-- **C9**: the backoff multiplier argument is never read by the loop
(the growth factor is the literal 2), so every observable of a run —
the trace of attempts, the computed sleeps, and the final result and
exit status — is unchanged when only the `-b` value differs. -/
theorem C9_backoff_ignored (command : List String) (condition : Condition)
    (attempts : Int) (delay b1 b2 max_delay jitter timeout : ℚ)
    (behavior : Nat → RunOutcome) (draw : Nat → ℚ) (args : Args) (b3 b4 : ℚ) :
    execute_command command condition attempts delay b1 max_delay jitter timeout
        behavior draw =
      execute_command command condition attempts delay b2 max_delay jitter timeout
        behavior draw ∧
    mainRun ⟨args.command, args.attempts, args.delay, b3, args.max_delay,
        args.jitter, args.timeout, args.condition⟩ behavior draw =
      mainRun ⟨args.command, args.attempts, args.delay, b4, args.max_delay,
        args.jitter, args.timeout, args.condition⟩ behavior draw ∧
    mainTrace ⟨args.command, args.attempts, args.delay, b3, args.max_delay,
        args.jitter, args.timeout, args.condition⟩ behavior draw =
      mainTrace ⟨args.command, args.attempts, args.delay, b4, args.max_delay,
        args.jitter, args.timeout, args.condition⟩ behavior draw :=
  ⟨rfl, rfl, rfl⟩

end Redo
